import Mathlib

/-!
Verification development for the pixel-agents log-tailing / transcript-parsing
engine.

The definitions below are a shallow embedding of the engine:
  * the Log Tailer, Directory Scanner, Provider A (Claude) parser, timer
    bookkeeping and agent removal of `src/extension.ts`
    (class `ArcadiaViewProvider`), and
  * the Provider B (Codex) parser `processCodexTranscriptLine` /
    `handleToolStart` / `handleToolEnd` of `webview-ui/src/App.tsx`, and
  * `removeAgent` of `src/agentManager.ts`.

Modelling conventions:
  * File contents and log lines are `List Char` (byte/char streams).
  * A parsed JSON value is the inductive `Json`; `JSON.parse` itself is kept
    outside the model: line processors take an `Option Json` where `none`
    models a parse exception (caught and ignored by the source), and the
    tailer is parametric in a `parseLine` function standing for `JSON.parse`.
  * JavaScript `Map`/`Set` objects keyed by agent id are modelled as
    functions `Nat → Option _` / `Nat → Bool`; insertion-ordered string sets
    and maps on an agent record are modelled as lists without duplicate keys.
  * `setTimeout`/`setInterval` effects are recorded in the state: an armed
    waiting-debounce timer is an entry of `waitingTimers`, a scheduled
    delayed `agentToolDone` post is an entry of `pendingToolDone`, and firing
    a timer is a separate function whose body is the source callback's body.
  * `webview.postMessage` calls are collected in an emitted `List Msg`
    (the Event Sink).
-/

/-- Parsed JSON values, the result of `JSON.parse` on one transcript line. -/
inductive Json where
  | null : Json
  | bool : Bool → Json
  | num : Int → Json
  | str : String → Json
  | arr : List Json → Json
  | obj : List (String × Json) → Json

/-- JavaScript property access `j[k]` on a parsed object (fields of the
transcript records have unique keys). Non-objects have no properties. -/
def Json.get? (j : Json) (k : String) : Option Json :=
  match j with
  | Json.obj fields => (fields.find? (fun p => p.1 = k)).map (fun p => p.2)
  | _ => none

/-- The string value of field `k`, when present and a string
(models `record.k === 'lit'` comparisons and TS `string` field reads). -/
def Json.strField (j : Json) (k : String) : Option String :=
  match j.get? k with
  | some (Json.str s) => some s
  | _ => none

/-- JavaScript truthiness of a parsed JSON value. -/
def jsTruthy (j : Json) : Bool :=
  match j with
  | Json.null => false
  | Json.bool b => b
  | Json.num n => n != 0
  | Json.str s => s ≠ ""
  | Json.arr _ => true
  | Json.obj _ => true

/-- ASCII whitespace as removed by JavaScript `trim()` (the transcript
format is ASCII-framed newline-delimited JSON). -/
def isJsWs (c : Char) : Bool :=
  c = ' ' || c = '\t' || c = '\n' || c = '\r' || c = '\x0b' || c = '\x0c'

/-- `line.trim()` is truthy: the line has some non-whitespace character. -/
def lineNonblank (l : List Char) : Bool :=
  l.any (fun c => !isJsWs c)

/-- `s.trim()` is truthy for a `String`. -/
def strNonblank (s : String) : Bool :=
  lineNonblank s.toList

/-- `text.split('\n')` followed by `lines.pop()`: the newline-terminated
segments of `text` in order, and the trailing fragment after the last
newline (the popped last array element, `''` when `text` ends in a
newline). -/
def splitNl : List Char → List (List Char) × List Char
  | [] => ([], [])
  | c :: rest =>
    let p := splitNl rest
    if c = '\n' then ([] :: p.1, p.2)
    else
      match p.1 with
      | [] => ([], c :: p.2)
      | l :: ls => ((c :: l) :: ls, p.2)

/-- Rejoin newline-terminated segments, each with its terminator. -/
def joinNl (ls : List (List Char)) : List Char :=
  (ls.map (fun l => l ++ ['\n'])).flatten

/-- `Set<string>.add` (insertion order, no duplicates). -/
def setAdd (s : List String) (x : String) : List String :=
  if s.contains x then s else s ++ [x]

/-- `Set<string>.delete`. -/
def setDel (s : List String) (x : String) : List String :=
  s.filter (fun y => y ≠ x)

/-- `Map<string,string>.set` (update in place or append). -/
def mapSet (m : List (String × String)) (k v : String) : List (String × String) :=
  if m.any (fun p => p.1 = k) then m.map (fun p => if p.1 = k then (k, v) else p)
  else m ++ [(k, v)]

/-- `Map<string,string>.delete`. -/
def mapDel (m : List (String × String)) (k : String) : List (String × String) :=
  m.filter (fun p => p.1 ≠ k)

/-- The mutable per-agent record (`AgentState` of `src/types.ts`; the
`extension.ts` variant uses the subset without `activeToolNames`,
`permissionSent`, `hadToolsInTurn`, which then just ride along). The
terminal handle, project dir and sub-agent maps play no role in the claims
and are omitted. -/
structure Agent where
  jsonlFile : String
  fileOffset : Nat
  lineBuffer : List Char
  activeToolIds : List String
  activeToolStatuses : List (String × String)
  activeToolNames : List (String × String)
  isWaiting : Bool
  permissionSent : Bool
  hadToolsInTurn : Bool
deriving DecidableEq, Repr

/-- A message posted to the webview (the Event Sink): `agentStatus` is
StatusActive/StatusWaiting, `agentToolStart` is ToolStarted,
`agentToolDone` is ToolFinished, `agentToolsClear` is ToolsCleared. -/
inductive Msg where
  | agentStatus : Nat → String → Msg
  | agentToolStart : Nat → String → String → Msg
  | agentToolDone : Nat → String → Msg
  | agentToolsClear : Nat → Msg
deriving DecidableEq, Repr

/-- The engine state: the agent registry plus every per-agent timer/watcher
table of the provider class, and the multiset of scheduled delayed
`agentToolDone` posts (anonymous `setTimeout(..., 300)` calls, recorded as
(agentId, toolId, delayMs)). -/
structure St where
  agents : Nat → Option Agent
  waitingTimers : Nat → Option Nat
  permissionTimers : Nat → Bool
  fileWatchers : Nat → Bool
  pollingTimers : Nat → Bool
  jsonlPollTimers : Nat → Bool
  pendingToolDone : List (Nat × String × Nat)

/-- Write back a mutated agent record (JS mutates the object held in the
`agents` map in place). -/
def setAgentF (st : St) (agentId : Nat) (a : Agent) : St :=
  { st with agents := fun j => if j = agentId then some a else st.agents j }

/-- `cancelWaitingTimer` of `extension.ts`: clearTimeout + delete. -/
def cancelWaitingTimer (agentId : Nat) (st : St) : St :=
  { st with waitingTimers := fun j => if j = agentId then none else st.waitingTimers j }

/-- `startWaitingTimer` of `extension.ts`: cancel-and-replace, arming a
timer with the given delay whose callback is `fireWaitingTimer`. -/
def startWaitingTimer (agentId : Nat) (delayMs : Nat) (st : St) : St :=
  let st1 := cancelWaitingTimer agentId st
  { st1 with waitingTimers := fun j => if j = agentId then some delayMs else st1.waitingTimers j }

/-- The `setTimeout` callback body armed by `startWaitingTimer`: delete the
timer entry, set `isWaiting` if the agent still exists, and post the
waiting status (the post is unconditional in the source). Invoked only
while the timer entry is armed (cancellation removes the entry). -/
def fireWaitingTimer (agentId : Nat) (st : St) : St × List Msg :=
  let st1 := { st with waitingTimers := fun j => if j = agentId then none else st.waitingTimers j }
  let st2 :=
    match st1.agents agentId with
    | some a => setAgentF st1 agentId { a with isWaiting := true }
    | none => st1
  (st2, [Msg.agentStatus agentId "waiting"])

/-- The body of one anonymous delayed-completion `setTimeout` callback:
it only posts `agentToolDone` (no record-existence check in the source).
Firing consumes the scheduled entry. -/
def firePendingToolDone (agentId : Nat) (toolId : String) (delayMs : Nat) (st : St) : St × List Msg :=
  ({ st with pendingToolDone := st.pendingToolDone.erase (agentId, toolId, delayMs) },
   [Msg.agentToolDone agentId toolId])

/-- `clearAgentActivity` of `extension.ts`: empty both tool structures, set
`isWaiting = false`, and post the `agentToolsClear` / `agentStatus active`
pair. -/
def clearAgentActivity (agentId : Nat) (st : St) : St × List Msg :=
  match st.agents agentId with
  | none => (st, [])
  | some a =>
    (setAgentF st agentId { a with activeToolIds := [], activeToolStatuses := [], isWaiting := false },
     [Msg.agentToolsClear agentId, Msg.agentStatus agentId "active"])

/-- POSIX `path.basename` on the separator-normalized paths appearing in
the transcripts (no trailing separators): the characters after the last
`'/'`. -/
def basename (s : String) : String :=
  String.mk (s.toList.foldl (fun acc c => if c = '/' then [] else acc ++ [c]) [])

/-- `formatToolStatus` of `extension.ts` (also exported by the modular
Claude parser and reused by the Codex parser): pure display-status
formatting from (tool name, input object). -/
def formatToolStatus (toolName : String) (input : Json) : String :=
  let base := fun (k : String) =>
    match input.get? k with
    | some (Json.str s) => basename s
    | _ => ""
  match toolName with
  | "Read" => "Reading " ++ base "file_path"
  | "Edit" => "Editing " ++ base "file_path"
  | "Write" => "Writing " ++ base "file_path"
  | "Bash" =>
    let cmd := match input.get? "command" with
      | some (Json.str s) => s
      | _ => ""
    "Running: " ++ (if cmd.length > 30 then (cmd.take 30).push '…' else cmd)
  | "Glob" => "Searching files"
  | "Grep" => "Searching code"
  | "WebFetch" => "Fetching web content"
  | "WebSearch" => "Searching the web"
  | "Task" => "Running subtask"
  | "AskUserQuestion" => "Waiting for your answer"
  | "EnterPlanMode" => "Planning"
  | "NotebookEdit" => "Editing notebook"
  | _ => "Using " ++ toolName

/-- One iteration of the `for (const block of blocks)` loop of the
`hasToolUse` branch of `processTranscriptLine` (`extension.ts`): for a
`tool_use` block with a truthy string id, record the tool and post
`agentToolStart`. -/
def toolUseStep (agentId : Nat) (acc : St × List Msg) (b : Json) : St × List Msg :=
  if b.strField "type" = some "tool_use" then
    match b.get? "id" with
    | some (Json.str toolId) =>
      if toolId = "" then acc
      else
        match acc.1.agents agentId with
        | some a =>
          let toolName := match b.strField "name" with
            | some n => n
            | none => ""
          let input := match b.get? "input" with
            | some j => if jsTruthy j then j else Json.obj []
            | none => Json.obj []
          let status := formatToolStatus toolName input
          let a' := { a with activeToolIds := setAdd a.activeToolIds toolId,
                             activeToolStatuses := mapSet a.activeToolStatuses toolId status }
          (setAgentF acc.1 agentId a', acc.2 ++ [Msg.agentToolStart agentId toolId status])
        | none => acc
    | _ => acc
  else acc

/-- The `hasToolUse` loop over all blocks. -/
def processToolUseBlocks (agentId : Nat) (blocks : List Json) (acc : St × List Msg) : St × List Msg :=
  blocks.foldl (toolUseStep agentId) acc

/-- One iteration of the `for (const block of blocks)` loop of the
`hasToolResult` branch of `processTranscriptLine` (`extension.ts`): for a
`tool_result` block with a truthy `tool_use_id`, delete the tool and
schedule the delayed `agentToolDone` post (a literal 300 ms `setTimeout`). -/
def toolResultStep (agentId : Nat) (acc : St × List Msg) (b : Json) : St × List Msg :=
  if b.strField "type" = some "tool_result" then
    match b.get? "tool_use_id" with
    | some (Json.str toolId) =>
      if toolId = "" then acc
      else
        match acc.1.agents agentId with
        | some a =>
          let a' := { a with activeToolIds := setDel a.activeToolIds toolId,
                             activeToolStatuses := mapDel a.activeToolStatuses toolId }
          let st' := setAgentF acc.1 agentId a'
          ({ st' with pendingToolDone := st'.pendingToolDone ++ [(agentId, toolId, 300)] }, acc.2)
        | none => acc
    | _ => acc
  else acc

/-- The `hasToolResult` loop over all blocks. -/
def processToolResultBlocks (agentId : Nat) (blocks : List Json) (acc : St × List Msg) : St × List Msg :=
  blocks.foldl (toolResultStep agentId) acc

/-- `processTranscriptLine` of `extension.ts` (the Provider A / Claude
parser) on one parsed line. `none` models a `JSON.parse` exception, which
the surrounding `try`/`catch` ignores. -/
def processTranscriptLine (agentId : Nat) (parsed : Option Json) (st : St) : St × List Msg :=
  match st.agents agentId with
  | none => (st, [])
  | some agent =>
    match parsed with
    | none => (st, [])
    | some record =>
      let content? := (record.get? "message").bind (fun m => m.get? "content")
      if record.strField "type" = some "assistant" then
        match content? with
        | some (Json.arr blocks) =>
          let hasToolUse := blocks.any (fun b => b.strField "type" = some "tool_use")
          if hasToolUse then
            let st1 := cancelWaitingTimer agentId st
            let st2 := setAgentF st1 agentId { agent with isWaiting := false }
            processToolUseBlocks agentId blocks (st2, [Msg.agentStatus agentId "active"])
          else
            let hasText := blocks.any (fun b => b.strField "type" = some "text")
            if hasText then (startWaitingTimer agentId 2000 st, [])
            else (st, [])
        | _ => (st, [])
      else if record.strField "type" = some "user" then
        match content? with
        | some (Json.arr blocks) =>
          let hasToolResult := blocks.any (fun b => b.strField "type" = some "tool_result")
          if hasToolResult then
            processToolResultBlocks agentId blocks (st, [])
          else
            let st1 := cancelWaitingTimer agentId st
            clearAgentActivity agentId st1
        | some (Json.str s) =>
          if strNonblank s then
            let st1 := cancelWaitingTimer agentId st
            clearAgentActivity agentId st1
          else (st, [])
        | _ => (st, [])
      else if record.strField "type" = some "system" &&
              record.strField "subtype" = some "turn_duration" then
        let st1 := cancelWaitingTimer agentId st
        (setAgentF st1 agentId { agent with isWaiting := true },
         [Msg.agentStatus agentId "waiting"])
      else (st, [])

/-- The tailing core of `readNewLines` (`extension.ts`): stat the file
(`fsys`, `none` modelling a thrown stat/read error caught by the source),
no-op when `size <= fileOffset`, otherwise read the delta, prepend
`lineBuffer`, split on newlines, store the trailing fragment back, advance
`fileOffset` to the size, and return the non-blank complete lines that the
loop hands to `processTranscriptLine`. -/
def readNewLinesCore (agentId : Nat) (fsys : String → Option (List Char)) (st : St) :
    St × List (List Char) :=
  match st.agents agentId with
  | none => (st, [])
  | some agent =>
    match fsys agent.jsonlFile with
    | none => (st, [])
    | some content =>
      if content.length ≤ agent.fileOffset then (st, [])
      else
        let text := agent.lineBuffer ++ content.drop agent.fileOffset
        let p := splitNl text
        (setAgentF st agentId { agent with fileOffset := content.length, lineBuffer := p.2 },
         p.1.filter lineNonblank)

/-- `readNewLines` of `extension.ts`: the tailing core followed by the
per-line parse/process loop. `parseLine` stands for `JSON.parse`. -/
def readNewLines (parseLine : List Char → Option Json) (agentId : Nat)
    (fsys : String → Option (List Char)) (st : St) : St × List Msg :=
  let r := readNewLinesCore agentId fsys st
  r.2.foldl
    (fun acc l =>
      let p := processTranscriptLine agentId (parseLine l) acc.1
      (p.1, acc.2 ++ p.2))
    (r.1, [])

/-- `startFileWatching` of `extension.ts`: try `fs.watch` (which throws
when the file does not exist, the failure being caught and only logged),
then always arm the 2 s backup polling interval. -/
def startFileWatching (agentId : Nat) (filePath : String)
    (fsys : String → Option (List Char)) (st : St) : St :=
  let st1 :=
    if (fsys filePath).isSome then
      { st with fileWatchers := fun j => if j = agentId then true else st.fileWatchers j }
    else st
  { st1 with pollingTimers := fun j => if j = agentId then true else st1.pollingTimers j }

/-- `reassignAgentToFile` of `extension.ts`: stop the old watcher and poll
timer, cancel the waiting timer, clear activity (posting the
cleared/active pair), swap the agent to the new file with offset 0 and an
empty line buffer, then start watching and immediately tail the new
file. -/
def reassignAgentToFile (parseLine : List Char → Option Json)
    (fsys : String → Option (List Char)) (agentId : Nat) (newFilePath : String)
    (st : St) : St × List Msg :=
  match st.agents agentId with
  | none => (st, [])
  | some _ =>
    let st1 := { st with
      fileWatchers := fun j => if j = agentId then false else st.fileWatchers j,
      pollingTimers := fun j => if j = agentId then false else st.pollingTimers j }
    let st2 := cancelWaitingTimer agentId st1
    let r := clearAgentActivity agentId st2
    let st4 :=
      match r.1.agents agentId with
      | some a => setAgentF r.1 agentId { a with jsonlFile := newFilePath, fileOffset := 0, lineBuffer := [] }
      | none => r.1
    let st5 := startFileWatching agentId newFilePath fsys st4
    let r2 := readNewLines parseLine agentId fsys st5
    (r2.1, r.2 ++ r2.2)

/-- `scanForNewJsonlFiles` of `extension.ts` on one tick: `files` is the
directory enumeration (a thrown `readdirSync` means the scan simply does
not run); each file not yet in the known-files set is added to it and, when
an active agent is designated, triggers `reassignAgentToFile`. The last
component logs the reassignment calls performed, in order. -/
def scanForNewJsonlFiles (parseLine : List Char → Option Json)
    (fsys : String → Option (List Char)) (files : List String)
    (knownJsonlFiles : List String) (activeAgentId : Option Nat) (st : St) :
    St × List String × List Msg × List (Nat × String) :=
  files.foldl
    (fun acc file =>
      if acc.2.1.contains file then acc
      else
        let known' := acc.2.1 ++ [file]
        match activeAgentId with
        | some aid =>
          let r := reassignAgentToFile parseLine fsys aid file acc.1
          (r.1, known', acc.2.2.1 ++ r.2, acc.2.2.2 ++ [(aid, file)])
        | none => (acc.1, known', acc.2.2.1, acc.2.2.2))
    (st, knownJsonlFiles, [], [])

/-- `cancelPermissionTimer` of `timerManager.ts` (the module is not under
`src`; its cancel behavior — clearTimeout + delete for the agent's
stall/permission timer — is fixed by the spec's Timer Manager contract). -/
def cancelPermissionTimer (agentId : Nat) (st : St) : St :=
  { st with permissionTimers := fun j => if j = agentId then false else st.permissionTimers j }

/-- Modelled from the spec: `startPermissionTimer` of `timerManager.ts` is
not under `src` (only its callers are). Per the spec's Timer Manager
contract, arming is idempotently cancel-and-replace; only the armed/unarmed
status of the stall/permission timer is modelled. -/
def startPermissionTimer (agentId : Nat) (st : St) : St :=
  let st1 := cancelPermissionTimer agentId st
  { st1 with permissionTimers := fun j => if j = agentId then true else st1.permissionTimers j }

/-- `removeAgent` of `agentManager.ts` (the `extension.ts` variant is the
same minus the permission-timer line): synchronously stop the JSONL poll
timer, the file watcher, the backup polling interval, and cancel the
waiting and permission timers, then delete the registry entry. The
workspace-persistence callback is outside the model. Scheduled delayed
`agentToolDone` posts are not tracked by any of these maps. -/
def removeAgent (agentId : Nat) (st : St) : St :=
  match st.agents agentId with
  | none => st
  | some _ =>
    { st with
      jsonlPollTimers := fun j => if j = agentId then false else st.jsonlPollTimers j,
      fileWatchers := fun j => if j = agentId then false else st.fileWatchers j,
      pollingTimers := fun j => if j = agentId then false else st.pollingTimers j,
      waitingTimers := fun j => if j = agentId then none else st.waitingTimers j,
      permissionTimers := fun j => if j = agentId then false else st.permissionTimers j,
      agents := fun j => if j = agentId then none else st.agents j }

/-- Modelled from the spec: `TOOL_DONE_DELAY_MS` of `constants.ts` is not
under `src` (only its importers are). The spec fixes the delayed-completion
delay at 300 ms, matching the literal 300 of `extension.ts`. -/
def TOOL_DONE_DELAY_MS : Nat := 300

/-- `CODEX_TOOL_NAME_MAP` of the Codex parser: provider-specific tool names
to the shared display vocabulary. -/
def CODEX_TOOL_NAME_MAP : List (String × String) :=
  [("read_file", "Read"), ("read", "Read"),
   ("write_file", "Write"), ("write", "Write"),
   ("edit_file", "Edit"), ("edit", "Edit"),
   ("run_command", "Bash"), ("bash", "Bash"), ("shell", "Bash"),
   ("search_files", "Glob"), ("glob", "Glob"),
   ("grep", "Grep"), ("search_code", "Grep"),
   ("web_fetch", "WebFetch"), ("web_search", "WebSearch"),
   ("ask_user", "AskUserQuestion"), ("ask_user_question", "AskUserQuestion"),
   ("plan", "EnterPlanMode")]

/-- `normalizeCodexToolName` of the Codex parser (`name` absent or empty
falls back to `'Tool'`; otherwise the lower-cased name is looked up, and
an unmapped name passes through). -/
def normalizeCodexToolName (name : Option String) : String :=
  match name with
  | none => "Tool"
  | some n =>
    if n = "" then "Tool"
    else
      match (CODEX_TOOL_NAME_MAP.find? (fun p => p.1 = n.toLower)).map (fun p => p.2) with
      | some mapped => mapped
      | none => n

/-- `isCodexToolRecord` of the Codex parser: the parsed value is an object
whose `type` is one of the four tool record tags. -/
def isCodexToolRecord (j : Json) : Bool :=
  j.strField "type" = some "tool_start" || j.strField "type" = some "tool_end" ||
  j.strField "type" = some "tool_call" || j.strField "type" = some "tool_result"

/-- `isCodexStatusRecord` of the Codex parser. -/
def isCodexStatusRecord (j : Json) : Bool :=
  j.strField "type" = some "status"

/-- `extractToolId` of the Codex parser: `record.tool_id ?? record.id ??
null`, with `none` for the final `null`. -/
def extractToolId (j : Json) : Option Json :=
  match j.get? "tool_id" with
  | some Json.null => j.get? "id"
  | some v => some v
  | none => j.get? "id"

/-- `extractToolName` of the Codex parser:
`normalizeCodexToolName(record.tool_name ?? record.name)`. Tool names are
modelled as JSON strings (a non-string field behaves as absent). -/
def extractToolName (j : Json) : String :=
  normalizeCodexToolName
    (match j.get? "tool_name" with
     | some (Json.str s) => some s
     | _ =>
       match j.get? "name" with
       | some (Json.str s) => some s
       | _ => none)

/-- `extractToolInput` of the Codex parser: `input` when it is a non-null
object (JS `typeof` counts arrays as objects), else `arguments` likewise,
else `{}`. -/
def extractToolInput (j : Json) : Json :=
  match j.get? "input" with
  | some (Json.obj fields) => Json.obj fields
  | some (Json.arr elems) => Json.arr elems
  | _ =>
    match j.get? "arguments" with
    | some (Json.obj fields) => Json.obj fields
    | some (Json.arr elems) => Json.arr elems
    | _ => Json.obj []

/-- `handleToolStart` of the Codex parser (`App.tsx`): falsy tool id is an
early return; otherwise cancel the waiting debounce, mark the agent active,
record the tool under its normalized name and formatted status, post the
active/toolStart pair, and arm the stall/permission timer unless the
normalized tool name is in `PERMISSION_EXEMPT_TOOLS` (that set lives in the
missing `transcriptParserClaude.ts` and is kept abstract as `exempt`).
Tool ids are modelled as JSON strings. -/
def handleToolStart (exempt : String → Bool) (agentId : Nat) (record : Json) (st : St) :
    St × List Msg :=
  match st.agents agentId with
  | none => (st, [])
  | some agent =>
    match extractToolId record with
    | some (Json.str toolId) =>
      if toolId = "" then (st, [])
      else
        let toolName := extractToolName record
        let status := formatToolStatus toolName (extractToolInput record)
        let st1 := cancelWaitingTimer agentId st
        let agent' := { agent with
          isWaiting := false,
          permissionSent := false,
          activeToolIds := setAdd agent.activeToolIds toolId,
          activeToolNames := mapSet agent.activeToolNames toolId toolName,
          activeToolStatuses := mapSet agent.activeToolStatuses toolId status }
        let st2 := setAgentF st1 agentId agent'
        let st3 := if exempt toolName then st2 else startPermissionTimer agentId st2
        (st3, [Msg.agentStatus agentId "active", Msg.agentToolStart agentId toolId status])
    | _ => (st, [])

/-- `handleToolEnd` of the Codex parser (`App.tsx`): falsy tool id is an
early return; otherwise delete the tool from all three maps, schedule the
delayed `agentToolDone` post, and, when no tools remain active, cancel the
permission timer, set the agent waiting and post the waiting status. -/
def handleToolEnd (agentId : Nat) (record : Json) (st : St) : St × List Msg :=
  match st.agents agentId with
  | none => (st, [])
  | some agent =>
    match extractToolId record with
    | some (Json.str toolId) =>
      if toolId = "" then (st, [])
      else
        let agent' := { agent with
          activeToolIds := setDel agent.activeToolIds toolId,
          activeToolNames := mapDel agent.activeToolNames toolId,
          activeToolStatuses := mapDel agent.activeToolStatuses toolId }
        let st1 := setAgentF st agentId agent'
        let st2 := { st1 with
          pendingToolDone := st1.pendingToolDone ++ [(agentId, toolId, TOOL_DONE_DELAY_MS)] }
        if agent'.activeToolIds = [] then
          let st3 := cancelPermissionTimer agentId st2
          let st4 := setAgentF st3 agentId { agent' with isWaiting := true, permissionSent := false }
          (st4, [Msg.agentStatus agentId "waiting"])
        else (st2, [])
    | _ => (st, [])

/-- Modelled from the spec: `clearAgentActivity` of `timerManager.ts` is
not under `src` (only its callers are). Per the spec, ToolsCleared clears
all of `activeTools`, and the in-src `extension.ts` analogue fixes the
emitted cleared/active pair and the `isWaiting` reset; the modular agent
fields `activeToolNames` and the permission timer are cleared alongside. -/
def clearAgentActivityM (agentId : Nat) (st : St) : St × List Msg :=
  match st.agents agentId with
  | none => (st, [])
  | some a =>
    let st1 := setAgentF st agentId
      { a with activeToolIds := [], activeToolStatuses := [], activeToolNames := [],
               isWaiting := false }
    let st2 := cancelPermissionTimer agentId st1
    (st2, [Msg.agentToolsClear agentId, Msg.agentStatus agentId "active"])

/-- `processCodexTranscriptLine` of the Codex parser (`App.tsx`). The
final fallback reuses the Provider A interpretation; the modular
`processClaudeTranscriptLine` is not under `src`, and the in-src
`extension.ts` parser `processTranscriptLine` is the repository's
implementation of that interpretation. -/
def processCodexTranscriptLine (exempt : String → Bool) (agentId : Nat)
    (parsed : Option Json) (st : St) : St × List Msg :=
  match st.agents agentId with
  | none => (st, [])
  | some agent =>
    match parsed with
    | none => (st, [])
    | some j =>
      if isCodexToolRecord j then
        if j.strField "type" = some "tool_start" || j.strField "type" = some "tool_call" then
          handleToolStart exempt agentId j st
        else
          handleToolEnd agentId j st
      else
        let statusFallthrough : St × List Msg :=
          let isUser := j.strField "type" = some "user" || j.strField "role" = some "user"
          match j.get? "text" with
          | some (Json.str t) =>
            if isUser && strNonblank t then
              let st1 := cancelWaitingTimer agentId st
              let r := clearAgentActivityM agentId st1
              let st2 :=
                match r.1.agents agentId with
                | some a => setAgentF r.1 agentId { a with hadToolsInTurn := false }
                | none => r.1
              (st2, r.2)
            else processTranscriptLine agentId (some j) st
          | _ => processTranscriptLine agentId (some j) st
        if isCodexStatusRecord j then
          if j.strField "status" = some "waiting" || j.strField "status" = some "idle" then
            let st1 := cancelPermissionTimer agentId st
            (setAgentF st1 agentId { agent with isWaiting := true, permissionSent := false },
             [Msg.agentStatus agentId "waiting"])
          else if j.strField "status" = some "active" then
            let st1 := cancelWaitingTimer agentId st
            (setAgentF st1 agentId { agent with isWaiting := false },
             [Msg.agentStatus agentId "active"])
          else statusFallthrough
        else statusFallthrough

/-- Modelled from the spec: the modular Provider A parser
`transcriptParserClaude.ts` is not under `src` (only its callers are). Per
the spec, its tool-start handling cancels the waiting debounce, marks the
agent active, records the tool with its formatted status, emits the
StatusActive / ToolStarted pair, and arms the stall/permission timer unless
the tool name is in the exemption set (`PERMISSION_EXEMPT_TOOLS`, also not
under `src`, kept abstract as `exempt`). -/
def claudeModularToolStart (exempt : String → Bool) (agentId : Nat)
    (toolId toolName : String) (input : Json) (st : St) : St × List Msg :=
  match st.agents agentId with
  | none => (st, [])
  | some agent =>
    let status := formatToolStatus toolName input
    let st1 := cancelWaitingTimer agentId st
    let agent' := { agent with
      isWaiting := false,
      permissionSent := false,
      activeToolIds := setAdd agent.activeToolIds toolId,
      activeToolNames := mapSet agent.activeToolNames toolId toolName,
      activeToolStatuses := mapSet agent.activeToolStatuses toolId status }
    let st2 := setAgentF st1 agentId agent'
    let st3 := if exempt toolName then st2 else startPermissionTimer agentId st2
    (st3, [Msg.agentStatus agentId "active", Msg.agentToolStart agentId toolId status])

/-- The trailing fragment returned by `splitNl` contains no newline. -/
theorem splitNl_rem_no_nl (s : List Char) : '\n' ∉ (splitNl s).2 := by
  induction s with
  | nil => simp [splitNl]
  | cons c rest ih =>
    simp only [splitNl]
    by_cases hc : c = '\n'
    · simp [hc, ih]
    · cases h : (splitNl rest).1 with
      | nil =>
        simp only [hc, if_neg hc, h]
        intro hmem
        rcases List.mem_cons.mp hmem with h1 | h1
        · exact hc h1.symm
        · exact ih h1
      | cons l ls => simpa [hc, h] using ih

/-- A newline-free string splits into no complete line and itself. -/
theorem splitNl_no_nl (s : List Char) (h : '\n' ∉ s) : splitNl s = ([], s) := by
  induction s with
  | nil => simp [splitNl]
  | cons c rest ih =>
    have hc : c ≠ '\n' := fun he => h (he ▸ List.mem_cons_self c rest)
    have hr : '\n' ∉ rest := fun hm => h (List.mem_cons_of_mem c hm)
    simp [splitNl, hc, ih hr]

/-- Splitting a newline-free prefix followed by a newline yields that
prefix as the first complete line. -/
theorem splitNl_append_nl (a t : List Char) (h : '\n' ∉ a) :
    splitNl (a ++ '\n' :: t) = (a :: (splitNl t).1, (splitNl t).2) := by
  induction a with
  | nil => simp [splitNl]
  | cons c rest ih =>
    have hc : c ≠ '\n' := fun he => h (he ▸ List.mem_cons_self c rest)
    have hr : '\n' ∉ rest := fun hm => h (List.mem_cons_of_mem c hm)
    simp [splitNl, hc, ih hr]

/-- Every byte is accounted for: the complete lines, each with its
newline terminator, followed by the trailing fragment, reconstruct the
split text. -/
theorem splitNl_join (s : List Char) : joinNl (splitNl s).1 ++ (splitNl s).2 = s := by
  induction s with
  | nil => simp [splitNl, joinNl]
  | cons c rest ih =>
    simp only [splitNl]
    by_cases hc : c = '\n'
    · simp only [hc, if_pos rfl, joinNl, List.map_cons, List.flatten_cons]
      simpa [joinNl] using ih
    · cases h : (splitNl rest).1 with
      | nil =>
        simp only [if_neg hc, h, joinNl, List.map_nil, List.flatten_nil, List.nil_append]
        have := ih
        rw [h] at this
        simp only [joinNl, List.map_nil, List.flatten_nil, List.nil_append] at this
        simp [this]
      | cons l ls =>
        simp only [if_neg hc, h, joinNl, List.map_cons, List.flatten_cons]
        have := ih
        rw [h] at this
        simp only [joinNl, List.map_cons, List.flatten_cons] at this
        simp only [List.cons_append, List.append_assoc, List.nil_append] at this ⊢
        simp [this]

/-- Concrete shrink scenario for C1: agent 1 tails `t.jsonl` with
`fileOffset` 5 and a pending fragment, and the file now has size 3. -/
def agC1 : Agent :=
  { jsonlFile := "t.jsonl", fileOffset := 5, lineBuffer := ['a', 'b'],
    activeToolIds := [], activeToolStatuses := [], activeToolNames := [],
    isWaiting := false, permissionSent := false, hadToolsInTurn := false }

/-- Engine state holding only agent 1 in the C1 shrink scenario. -/
def stC1 : St :=
  { agents := fun j => if j = 1 then some agC1 else none,
    waitingTimers := fun _ => none, permissionTimers := fun _ => false,
    fileWatchers := fun _ => false, pollingTimers := fun _ => false,
    jsonlPollTimers := fun _ => false, pendingToolDone := [] }

/-- Filesystem for the C1 scenario: `t.jsonl` shrank to 3 bytes. -/
def fsC1 : String → Option (List Char) :=
  fun p => if p = "t.jsonl" then some ['x', 'y', 'z'] else none

/-- Claim C1 is false on the code: with `fileOffset = 5` and the file
shrunk to size 3 (`size < readOffset`), the tail invocation leaves the
state untouched — `readOffset` stays 5 (it is not reset to 0) and the
`lineRemainder` is kept, so the file is not replayed from byte 0. -/
theorem c1_counterexample :
    readNewLines (fun _ => none) 1 fsC1 stC1 = (stC1, []) ∧
    ((readNewLines (fun _ => none) 1 fsC1 stC1).1.agents 1).map Agent.fileOffset = some 5 ∧
    ((readNewLines (fun _ => none) 1 fsC1 stC1).1.agents 1).map Agent.lineBuffer =
      some ['a', 'b'] ∧
    (5 : Nat) ≠ 0 :=
  ⟨rfl, rfl, rfl, by decide⟩

/-- Claim C1 (amended): whenever the file's current size is at most the
agent's `readOffset` — in particular after a shrink/truncation/rotation —
the tail invocation is a complete no-op: `readOffset` and `lineRemainder`
are left unchanged (there is no reset to 0), no line is handed to a parser
and no event is emitted, so the file is not replayed. -/
theorem c1_shrink_noop (parseLine : List Char → Option Json) (agentId : Nat)
    (fsys : String → Option (List Char)) (st : St) (a : Agent) (content : List Char)
    (hA : st.agents agentId = some a) (hf : fsys a.jsonlFile = some content)
    (hle : content.length ≤ a.fileOffset) :
    readNewLines parseLine agentId fsys st = (st, []) := by
  simp [readNewLines, readNewLinesCore, hA, hf, hle]

/-- Witness for `c1_shrink_noop` at the concrete C1 scenario. -/
theorem c1_shrink_noop_witness :
    stC1.agents 1 = some agC1 ∧ fsC1 agC1.jsonlFile = some ['x', 'y', 'z'] ∧
    ['x', 'y', 'z'].length ≤ agC1.fileOffset ∧
    readNewLines (fun _ => none) 1 fsC1 stC1 = (stC1, []) :=
  ⟨rfl, rfl, by decide, c1_shrink_noop (fun _ => none) 1 fsC1 stC1 agC1 ['x', 'y', 'z'] rfl rfl (by decide)⟩

/-- Claim C2 (confirmed): starting a tail at offset 0 with an empty
remainder, (a) the tailer hands the parser exactly the non-blank
newline-terminated lines of the written content, stores the final
unterminated fragment (which contains no newline) back as the line buffer,
and the handed lines with their terminators plus the fragment reconstruct
the content byte-for-byte; (b) a later write carrying no newline hands
nothing to the parser; (c) a later write that terminates the fragment
causes exactly one parse of the now-complete line. -/
theorem c2_partial_line_safety (agentId : Nat) (st : St) (a : Agent)
    (s w₂ w' : List Char)
    (hA : st.agents agentId = some a) (hoff : a.fileOffset = 0) (hbuf : a.lineBuffer = [])
    (hs : 0 < s.length) (hw2 : '\n' ∉ w₂) (hw2n : 0 < w₂.length) (hw' : '\n' ∉ w')
    (hnb : lineNonblank ((splitNl s).2 ++ w') = true) :
    (readNewLinesCore agentId (fun p => if p = a.jsonlFile then some s else none) st).2 =
      ((splitNl s).1).filter lineNonblank ∧
    (readNewLinesCore agentId (fun p => if p = a.jsonlFile then some s else none) st).1.agents
        agentId =
      some { a with fileOffset := s.length, lineBuffer := (splitNl s).2 } ∧
    '\n' ∉ (splitNl s).2 ∧
    joinNl (splitNl s).1 ++ (splitNl s).2 = s ∧
    (readNewLinesCore agentId (fun p => if p = a.jsonlFile then some (s ++ w₂) else none)
      (readNewLinesCore agentId (fun p => if p = a.jsonlFile then some s else none) st).1).2 =
      [] ∧
    readNewLinesCore agentId (fun p => if p = a.jsonlFile then some (s ++ (w' ++ ['\n'])) else none)
      (readNewLinesCore agentId (fun p => if p = a.jsonlFile then some s else none) st).1 =
      (setAgentF
        (readNewLinesCore agentId (fun p => if p = a.jsonlFile then some s else none) st).1
        agentId
        { a with fileOffset := (s ++ (w' ++ ['\n'])).length, lineBuffer := [] },
       [(splitNl s).2 ++ w']) := by
  have hfrag : '\n' ∉ (splitNl s).2 := splitNl_rem_no_nl s
  have hsne : s ≠ [] := List.ne_nil_of_length_pos hs
  have hw2ne : w₂ ≠ [] := List.ne_nil_of_length_pos hw2n
  have hr1 : readNewLinesCore agentId (fun p => if p = a.jsonlFile then some s else none) st =
      (setAgentF st agentId { a with fileOffset := s.length, lineBuffer := (splitNl s).2 },
       ((splitNl s).1).filter lineNonblank) := by
    simp [readNewLinesCore, hA, hsne, hbuf, hoff]
  have hA2 : (setAgentF st agentId
      { a with fileOffset := s.length, lineBuffer := (splitNl s).2 }).agents agentId =
      some { a with fileOffset := s.length, lineBuffer := (splitNl s).2 } := by
    simp [setAgentF]
  refine ⟨by rw [hr1], by rw [hr1]; exact hA2, hfrag, splitNl_join s, ?_, ?_⟩
  · rw [hr1]
    have hnonl : '\n' ∉ (splitNl s).2 ++ w₂ := by
      intro hm
      rcases List.mem_append.mp hm with h1 | h1
      · exact hfrag h1
      · exact hw2 h1
    simp [readNewLinesCore, hA2, hw2ne, List.drop_left, splitNl_no_nl _ hnonl]
  · rw [hr1]
    have hnonl2 : '\n' ∉ (splitNl s).2 ++ w' := by
      intro hm
      rcases List.mem_append.mp hm with h1 | h1
      · exact hfrag h1
      · exact hw' h1
    have hsplit : splitNl ((splitNl s).2 ++ (w' ++ ['\n'])) = ([(splitNl s).2 ++ w'], []) := by
      have := splitNl_append_nl ((splitNl s).2 ++ w') [] hnonl2
      simpa [splitNl, List.append_assoc] using this
    simp [readNewLinesCore, hA2, List.drop_left, hsplit, hnb]

/-- Concrete agent for the C2 scenario, tailing `s.jsonl` from byte 0. -/
def agC2 : Agent :=
  { jsonlFile := "s.jsonl", fileOffset := 0, lineBuffer := [],
    activeToolIds := [], activeToolStatuses := [], activeToolNames := [],
    isWaiting := false, permissionSent := false, hadToolsInTurn := false }

/-- Engine state holding only agent 1 in the C2 scenario. -/
def stC2 : St :=
  { agents := fun j => if j = 1 then some agC2 else none,
    waitingTimers := fun _ => none, permissionTimers := fun _ => false,
    fileWatchers := fun _ => false, pollingTimers := fun _ => false,
    jsonlPollTimers := fun _ => false, pendingToolDone := [] }

/-- First write of the C2 scenario: one complete JSON line followed by an
unterminated fragment. -/
def sC2 : List Char := ("\x7b\"a\":1\x7d\n\x7b\"b").toList

/-- Second write of the C2 scenario: more bytes, still no newline. -/
def w2C2 : List Char := (":2").toList

/-- A completing write for the C2 scenario (newline-terminated by the
theorem's framing). -/
def wC2 : List Char := ("\":2\x7d").toList

/-- Witness for `c2_partial_line_safety` at the concrete scenario-3 inputs. -/
theorem c2_partial_line_safety_witness :
    stC2.agents 1 = some agC2 ∧ agC2.fileOffset = 0 ∧ agC2.lineBuffer = [] ∧
    0 < sC2.length ∧ '\n' ∉ w2C2 ∧ 0 < w2C2.length ∧ '\n' ∉ wC2 ∧
    lineNonblank ((splitNl sC2).2 ++ wC2) = true ∧
    ((readNewLinesCore 1 (fun p => if p = agC2.jsonlFile then some sC2 else none) stC2).2 =
        ((splitNl sC2).1).filter lineNonblank ∧
      (readNewLinesCore 1 (fun p => if p = agC2.jsonlFile then some sC2 else none) stC2).1.agents
          1 =
        some { agC2 with fileOffset := sC2.length, lineBuffer := (splitNl sC2).2 } ∧
      '\n' ∉ (splitNl sC2).2 ∧
      joinNl (splitNl sC2).1 ++ (splitNl sC2).2 = sC2 ∧
      (readNewLinesCore 1 (fun p => if p = agC2.jsonlFile then some (sC2 ++ w2C2) else none)
        (readNewLinesCore 1 (fun p => if p = agC2.jsonlFile then some sC2 else none) stC2).1).2 =
        [] ∧
      readNewLinesCore 1
        (fun p => if p = agC2.jsonlFile then some (sC2 ++ (wC2 ++ ['\n'])) else none)
        (readNewLinesCore 1 (fun p => if p = agC2.jsonlFile then some sC2 else none) stC2).1 =
        (setAgentF
          (readNewLinesCore 1 (fun p => if p = agC2.jsonlFile then some sC2 else none) stC2).1
          1
          { agC2 with fileOffset := (sC2 ++ (wC2 ++ ['\n'])).length, lineBuffer := [] },
         [(splitNl sC2).2 ++ wC2])) :=
  ⟨rfl, rfl, rfl, by decide, by decide, by decide, by decide, by decide,
   c2_partial_line_safety 1 stC2 agC2 sC2 w2C2 wC2 rfl rfl rfl (by decide) (by decide)
     (by decide) (by decide) (by decide)⟩

/-- Fresh agent for the C3 scenarios. -/
def agC3 : Agent :=
  { jsonlFile := "s.jsonl", fileOffset := 0, lineBuffer := [],
    activeToolIds := [], activeToolStatuses := [], activeToolNames := [],
    isWaiting := false, permissionSent := false, hadToolsInTurn := false }

/-- Engine state holding only agent 1 in the C3 scenarios. -/
def stC3 : St :=
  { agents := fun j => if j = 1 then some agC3 else none,
    waitingTimers := fun _ => none, permissionTimers := fun _ => false,
    fileWatchers := fun _ => false, pollingTimers := fun _ => false,
    jsonlPollTimers := fun _ => false, pendingToolDone := [] }

/-- The scenario-1 input line, parsed:
`{"type":"assistant","message":{"content":[{"type":"tool_use","id":"t1","name":"Read","input":{"file_path":"/repo/a.ts"}}]}}`. -/
def scn1 : Json :=
  Json.obj [("type", Json.str "assistant"),
    ("message", Json.obj [("content", Json.arr [Json.obj
      [("type", Json.str "tool_use"), ("id", Json.str "t1"), ("name", Json.str "Read"),
       ("input", Json.obj [("file_path", Json.str "/repo/a.ts")])]])])]

/-- Claim C3 (confirmed; the Provider A stall-timer conjunct is settled
against the spec-modelled modular parser `claudeModularToolStart`, since
`transcriptParserClaude.ts` and `PERMISSION_EXEMPT_TOOLS` are not under
`src`): a parsed tool-start record cancels any pending waiting-debounce
timer, marks the agent Active, adds the tool id to the active-tool maps
with its formatted display status, emits StatusActive and ToolStarted, and
arms the stall/permission timer unless the normalized tool name is exempt —
shown for a Provider B `tool_start`/`tool_call` record of the documented
shape and for the Provider A modular parser — and the scenario-1 input on
the in-src `extension.ts` parser yields
`ToolStarted{toolId "t1", status "Reading a.ts"}` and StatusActive. -/
theorem c3_tool_start (exempt : String → Bool) (agentId : Nat) (st stm : St) (a am : Agent)
    (tid nm ty tidm nmm : String) (args : List (String × Json)) (inputm : Json)
    (hA : st.agents agentId = some a) (htid : tid ≠ "")
    (hty : ty = "tool_start" ∨ ty = "tool_call")
    (hAm : stm.agents agentId = some am) :
    (let r := Json.obj [("type", Json.str ty), ("id", Json.str tid), ("name", Json.str nm),
                        ("arguments", Json.obj args)]
     let res := processCodexTranscriptLine exempt agentId (some r) st
     let toolName := normalizeCodexToolName (some nm)
     let status := formatToolStatus toolName (Json.obj args)
     let a' := { a with
       isWaiting := false, permissionSent := false,
       activeToolIds := setAdd a.activeToolIds tid,
       activeToolNames := mapSet a.activeToolNames tid toolName,
       activeToolStatuses := mapSet a.activeToolStatuses tid status }
     res.1.waitingTimers agentId = none ∧
     res.1.agents agentId = some a' ∧
     res.2 = [Msg.agentStatus agentId "active", Msg.agentToolStart agentId tid status] ∧
     res.1.permissionTimers agentId =
       (if exempt toolName then st.permissionTimers agentId else true)) ∧
    (let resm := claudeModularToolStart exempt agentId tidm nmm inputm stm
     let statusm := formatToolStatus nmm inputm
     let am' := { am with
       isWaiting := false, permissionSent := false,
       activeToolIds := setAdd am.activeToolIds tidm,
       activeToolNames := mapSet am.activeToolNames tidm nmm,
       activeToolStatuses := mapSet am.activeToolStatuses tidm statusm }
     resm.1.waitingTimers agentId = none ∧
     resm.1.agents agentId = some am' ∧
     resm.2 = [Msg.agentStatus agentId "active", Msg.agentToolStart agentId tidm statusm] ∧
     resm.1.permissionTimers agentId =
       (if exempt nmm then stm.permissionTimers agentId else true)) ∧
    ((processTranscriptLine 1 (some scn1) stC3).2 =
       [Msg.agentStatus 1 "active", Msg.agentToolStart 1 "t1" "Reading a.ts"] ∧
     ((processTranscriptLine 1 (some scn1) stC3).1.agents 1).map
         (fun x => (x.activeToolIds, x.activeToolStatuses, x.isWaiting)) =
       some (["t1"], [("t1", "Reading a.ts")], false) ∧
     (processTranscriptLine 1 (some scn1) stC3).1.waitingTimers 1 = none) := by
  refine ⟨?_, ?_, by exact ⟨rfl, rfl, rfl⟩⟩
  · have hr : (Json.obj [("type", Json.str ty), ("id", Json.str tid), ("name", Json.str nm),
        ("arguments", Json.obj args)]).strField "type" = some ty := by
      simp [Json.strField, Json.get?]
    by_cases hex : exempt (normalizeCodexToolName (some nm)) <;>
    · rcases hty with h | h <;>
      · subst h
        simp [processCodexTranscriptLine, handleToolStart, isCodexToolRecord, hr, hA, htid,
          extractToolId, extractToolName, extractToolInput, Json.strField, Json.get?,
          cancelWaitingTimer, setAgentF, startPermissionTimer, cancelPermissionTimer, hex]
  · by_cases hex : exempt nmm <;>
      simp [claudeModularToolStart, hAm, cancelWaitingTimer, setAgentF,
        startPermissionTimer, cancelPermissionTimer, hex]

/-- A concrete instantiation of the abstract exemption set for the C3
witness. -/
def exemptC3 : String → Bool := fun n => n = "Read"

/-- Witness for `c3_tool_start`: Provider B `tool_call` record
the documented Provider B shape with id c1, name run_command and arguments command npm test
and a Provider A `Bash` tool start, with the exemption set instantiated to
`{"Read"}`. -/
theorem c3_tool_start_witness :
    stC3.agents 1 = some agC3 ∧ ("c1" : String) ≠ "" ∧
    (("tool_call" : String) = "tool_start" ∨ ("tool_call" : String) = "tool_call") ∧
    ((let r := Json.obj [("type", Json.str "tool_call"), ("id", Json.str "c1"),
        ("name", Json.str "run_command"),
        ("arguments", Json.obj [("command", Json.str "npm test")])]
      let res := processCodexTranscriptLine exemptC3 1 (some r) stC3
      let toolName := normalizeCodexToolName (some "run_command")
      let status := formatToolStatus toolName (Json.obj [("command", Json.str "npm test")])
      let a' := { agC3 with
        isWaiting := false, permissionSent := false,
        activeToolIds := setAdd agC3.activeToolIds "c1",
        activeToolNames := mapSet agC3.activeToolNames "c1" toolName,
        activeToolStatuses := mapSet agC3.activeToolStatuses "c1" status }
      res.1.waitingTimers 1 = none ∧
      res.1.agents 1 = some a' ∧
      res.2 = [Msg.agentStatus 1 "active", Msg.agentToolStart 1 "c1" status] ∧
      res.1.permissionTimers 1 =
        (if exemptC3 toolName then stC3.permissionTimers 1 else true)) ∧
     (let resm := claudeModularToolStart exemptC3 1 "t9" "Bash"
        (Json.obj [("command", Json.str "npm test")]) stC3
      let statusm := formatToolStatus "Bash" (Json.obj [("command", Json.str "npm test")])
      let am' := { agC3 with
        isWaiting := false, permissionSent := false,
        activeToolIds := setAdd agC3.activeToolIds "t9",
        activeToolNames := mapSet agC3.activeToolNames "t9" "Bash",
        activeToolStatuses := mapSet agC3.activeToolStatuses "t9" statusm }
      resm.1.waitingTimers 1 = none ∧
      resm.1.agents 1 = some am' ∧
      resm.2 = [Msg.agentStatus 1 "active", Msg.agentToolStart 1 "t9" statusm] ∧
      resm.1.permissionTimers 1 =
        (if exemptC3 "Bash" then stC3.permissionTimers 1 else true)) ∧
     ((processTranscriptLine 1 (some scn1) stC3).2 =
        [Msg.agentStatus 1 "active", Msg.agentToolStart 1 "t1" "Reading a.ts"] ∧
      ((processTranscriptLine 1 (some scn1) stC3).1.agents 1).map
          (fun x => (x.activeToolIds, x.activeToolStatuses, x.isWaiting)) =
        some (["t1"], [("t1", "Reading a.ts")], false) ∧
      (processTranscriptLine 1 (some scn1) stC3).1.waitingTimers 1 = none)) :=
  ⟨rfl, by decide, Or.inr rfl,
   by
    have h := c3_tool_start exemptC3 1 stC3 stC3 agC3 agC3
      "c1" "run_command" "tool_call" "t9" "Bash"
      [("command", Json.str "npm test")] (Json.obj [("command", Json.str "npm test")])
      rfl (by decide) (Or.inr rfl) rfl
    refine ⟨h.1, h.2.1, h.2.2⟩⟩

/-- Agent for the C4 counterexample: exactly one outstanding tool `t1`. -/
def agC4 : Agent :=
  { jsonlFile := "s.jsonl", fileOffset := 0, lineBuffer := [],
    activeToolIds := ["t1"], activeToolStatuses := [("t1", "Using X")],
    activeToolNames := [], isWaiting := false, permissionSent := false,
    hadToolsInTurn := false }

/-- Engine state holding only agent 1 in the C4 counterexample. -/
def stC4 : St :=
  { agents := fun j => if j = 1 then some agC4 else none,
    waitingTimers := fun _ => none, permissionTimers := fun _ => false,
    fileWatchers := fun _ => false, pollingTimers := fun _ => false,
    jsonlPollTimers := fun _ => false, pendingToolDone := [] }

/-- The completion record for the C4 counterexample: a Provider A
`tool_result` for the outstanding tool `t1`. -/
def recC4 : Json :=
  Json.obj [("type", Json.str "user"),
    ("message", Json.obj [("content", Json.arr [Json.obj
      [("type", Json.str "tool_result"), ("tool_use_id", Json.str "t1")]])])]

/-- Claim C4 is false on the in-src Provider A parser: after the matching
completion of the last outstanding tool, no tools remain active, yet the
agent's `isWaiting` stays `false` (the claim requires `turnState =
Waiting`) and no stall timer exists to cancel; only the delayed
`agentToolDone` is scheduled. -/
theorem c4_counterexample :
    ((processTranscriptLine 1 (some recC4) stC4).1.agents 1).map Agent.activeToolIds =
      some [] ∧
    ((processTranscriptLine 1 (some recC4) stC4).1.agents 1).map Agent.isWaiting =
      some false ∧
    (processTranscriptLine 1 (some recC4) stC4).2 = [] ∧
    (processTranscriptLine 1 (some recC4) stC4).1.pendingToolDone = [(1, "t1", 300)] ∧
    false ≠ true :=
  ⟨rfl, rfl, rfl, rfl, by decide⟩

/-- Claim C4 (amended): for a completion record matching a started tool id,
the parser removes the id from the active-tool maps and schedules the
delayed `agentToolDone` post with the fixed 300 ms delay, whose firing
emits ToolFinished; the in-src Provider A parser of `extension.ts` leaves
`isWaiting` unchanged and emits nothing immediately (turn end there comes
from the `turn_duration` record or the waiting debounce), while the
Provider B parser, whenever no tools remain active after the removal,
cancels the stall/permission timer, sets the agent Waiting and emits
StatusWaiting. -/
theorem c4_tool_completion (aid : Nat) (st : St) (a : Agent) (tid : String)
    (exempt : String → Bool) (aid2 : Nat) (st2 : St) (a2 : Agent) (tid2 ty2 : String)
    (hA : st.agents aid = some a) (htid : tid ≠ "") (_hmem : tid ∈ a.activeToolIds)
    (hA2 : st2.agents aid2 = some a2) (htid2 : tid2 ≠ "")
    (hty2 : ty2 = "tool_end" ∨ ty2 = "tool_result")
    (hEmpty : setDel a2.activeToolIds tid2 = []) :
    (let rec1 := Json.obj [("type", Json.str "user"),
       ("message", Json.obj [("content", Json.arr [Json.obj
         [("type", Json.str "tool_result"), ("tool_use_id", Json.str tid)]])])]
     let res := processTranscriptLine aid (some rec1) st
     let a' := { a with
       activeToolIds := setDel a.activeToolIds tid,
       activeToolStatuses := mapDel a.activeToolStatuses tid }
     res.1.agents aid = some a' ∧
     tid ∉ a'.activeToolIds ∧
     a'.isWaiting = a.isWaiting ∧
     res.1.pendingToolDone = st.pendingToolDone ++ [(aid, tid, 300)] ∧
     res.2 = [] ∧
     (firePendingToolDone aid tid 300 res.1).2 = [Msg.agentToolDone aid tid]) ∧
    (let rec2 := Json.obj [("type", Json.str ty2), ("tool_id", Json.str tid2)]
     let res2 := processCodexTranscriptLine exempt aid2 (some rec2) st2
     let a2' := { a2 with
       activeToolIds := setDel a2.activeToolIds tid2,
       activeToolNames := mapDel a2.activeToolNames tid2,
       activeToolStatuses := mapDel a2.activeToolStatuses tid2,
       isWaiting := true, permissionSent := false }
     res2.1.agents aid2 = some a2' ∧
     res2.1.pendingToolDone = st2.pendingToolDone ++ [(aid2, tid2, TOOL_DONE_DELAY_MS)] ∧
     TOOL_DONE_DELAY_MS = 300 ∧
     res2.1.permissionTimers aid2 = false ∧
     res2.2 = [Msg.agentStatus aid2 "waiting"]) := by
  constructor
  · have hnotmem : tid ∉ setDel a.activeToolIds tid := by
      simp [setDel]
    simp [processTranscriptLine, processToolResultBlocks, toolResultStep, Json.strField,
      Json.get?, hA, htid, setAgentF, firePendingToolDone, hnotmem]
  · have hr : (Json.obj [("type", Json.str ty2), ("tool_id", Json.str tid2)]).strField "type" =
        some ty2 := by
      simp [Json.strField, Json.get?]
    have hneS : ty2 ≠ "tool_start" := by
      rcases hty2 with h | h <;> subst h <;> decide
    have hneC : ty2 ≠ "tool_call" := by
      rcases hty2 with h | h <;> subst h <;> decide
    rcases hty2 with h | h <;>
    · subst h
      refine ⟨?_, ?_, rfl, ?_, ?_⟩ <;>
        simp [processCodexTranscriptLine, handleToolEnd, isCodexToolRecord, hr, hA2, htid2,
          extractToolId, Json.strField, Json.get?, setAgentF, cancelPermissionTimer, hEmpty]

/-- Codex-side agent for the C4 witness: one outstanding tool `c1`. -/
def agC4b : Agent :=
  { jsonlFile := "s.jsonl", fileOffset := 0, lineBuffer := [],
    activeToolIds := ["c1"], activeToolStatuses := [("c1", "Running: npm test")],
    activeToolNames := [("c1", "Bash")], isWaiting := false, permissionSent := false,
    hadToolsInTurn := false }

/-- Engine state holding only agent 1 in the Codex C4 witness scenario,
with an armed stall/permission timer. -/
def stC4b : St :=
  { agents := fun j => if j = 1 then some agC4b else none,
    waitingTimers := fun _ => none, permissionTimers := fun j => j = 1,
    fileWatchers := fun _ => false, pollingTimers := fun _ => false,
    jsonlPollTimers := fun _ => false, pendingToolDone := [] }

/-- Witness for `c4_tool_completion` at concrete completions for both
parsers. -/
theorem c4_tool_completion_witness :
    stC4.agents 1 = some agC4 ∧ ("t1" : String) ≠ "" ∧ "t1" ∈ agC4.activeToolIds ∧
    stC4b.agents 1 = some agC4b ∧ ("c1" : String) ≠ "" ∧
    (("tool_end" : String) = "tool_end" ∨ ("tool_end" : String) = "tool_result") ∧
    setDel agC4b.activeToolIds "c1" = [] ∧
    ((let rec1 := Json.obj [("type", Json.str "user"),
        ("message", Json.obj [("content", Json.arr [Json.obj
          [("type", Json.str "tool_result"), ("tool_use_id", Json.str "t1")]])])]
      let res := processTranscriptLine 1 (some rec1) stC4
      let a' := { agC4 with
        activeToolIds := setDel agC4.activeToolIds "t1",
        activeToolStatuses := mapDel agC4.activeToolStatuses "t1" }
      res.1.agents 1 = some a' ∧
      "t1" ∉ a'.activeToolIds ∧
      a'.isWaiting = agC4.isWaiting ∧
      res.1.pendingToolDone = stC4.pendingToolDone ++ [(1, "t1", 300)] ∧
      res.2 = [] ∧
      (firePendingToolDone 1 "t1" 300 res.1).2 = [Msg.agentToolDone 1 "t1"]) ∧
     (let rec2 := Json.obj [("type", Json.str "tool_end"), ("tool_id", Json.str "c1")]
      let res2 := processCodexTranscriptLine (fun _ => false) 1 (some rec2) stC4b
      let a2' := { agC4b with
        activeToolIds := setDel agC4b.activeToolIds "c1",
        activeToolNames := mapDel agC4b.activeToolNames "c1",
        activeToolStatuses := mapDel agC4b.activeToolStatuses "c1",
        isWaiting := true, permissionSent := false }
      res2.1.agents 1 = some a2' ∧
      res2.1.pendingToolDone = stC4b.pendingToolDone ++ [(1, "c1", TOOL_DONE_DELAY_MS)] ∧
      TOOL_DONE_DELAY_MS = 300 ∧
      res2.1.permissionTimers 1 = false ∧
      res2.2 = [Msg.agentStatus 1 "waiting"])) :=
  ⟨rfl, by decide, by decide, rfl, by decide, Or.inl rfl, by decide,
   c4_tool_completion 1 stC4 agC4 "t1" (fun _ => false) 1 stC4b agC4b "c1" "tool_end"
     rfl (by decide) (by decide) rfl (by decide) (Or.inl rfl) (by decide)⟩

/-- Agent for the C5 scenarios: tailing file `A` with some activity. -/
def agC5 : Agent :=
  { jsonlFile := "A", fileOffset := 7, lineBuffer := [],
    activeToolIds := ["t1"], activeToolStatuses := [("t1", "Using X")],
    activeToolNames := [], isWaiting := true, permissionSent := false,
    hadToolsInTurn := false }

/-- Engine state holding only agent 1 (the active agent) for C5. -/
def stC5 : St :=
  { agents := fun j => if j = 1 then some agC5 else none,
    waitingTimers := fun _ => none, permissionTimers := fun _ => false,
    fileWatchers := fun j => j = 1, pollingTimers := fun j => j = 1,
    jsonlPollTimers := fun _ => false, pendingToolDone := [] }

/-- Filesystem for C5: the newly discovered files `B` and `C` exist and
are empty. -/
def fsC5 : String → Option (List Char) :=
  fun p => if p = "B" then some [] else if p = "C" then some [] else none

/-- Claim C5 is false on the code: a single scan tick that discovers two
new files `B` and `C` (known-files seeded with `{A}`, agent 1 active)
performs two reassignments — `reassignAgentToFile` is invoked once per new
file, emitting the cleared/active pair twice, and the agent ends on the
last file `C`. -/
theorem c5_counterexample :
    (scanForNewJsonlFiles (fun _ => none) fsC5 ["A", "B", "C"] ["A"] (some 1) stC5).2.2.2 =
      [(1, "B"), (1, "C")] ∧
    ((scanForNewJsonlFiles (fun _ => none) fsC5 ["A", "B", "C"] ["A"] (some 1) stC5).2.2.2).length =
      2 ∧
    ¬ ((scanForNewJsonlFiles (fun _ => none) fsC5 ["A", "B", "C"] ["A"] (some 1) stC5).2.2.2).length
      ≤ 1 ∧
    (scanForNewJsonlFiles (fun _ => none) fsC5 ["A", "B", "C"] ["A"] (some 1) stC5).2.1 =
      ["A", "B", "C"] ∧
    (scanForNewJsonlFiles (fun _ => none) fsC5 ["A", "B", "C"] ["A"] (some 1) stC5).2.2.1 =
      [Msg.agentToolsClear 1, Msg.agentStatus 1 "active",
       Msg.agentToolsClear 1, Msg.agentStatus 1 "active"] ∧
    ((scanForNewJsonlFiles (fun _ => none) fsC5 ["A", "B", "C"] ["A"] (some 1) stC5).1.agents
        1).map Agent.jsonlFile = some "C" :=
  ⟨rfl, rfl, by decide, rfl, rfl, rfl⟩

/-- Claim C5 (amended): a scan performs one reassignment per newly
discovered file (all to the designated active agent), so with exactly one
new file `B` the active agent is reassigned to `B` exactly once — its
activity cleared with one cleared/active pair, its tail state reset to `B`
at offset 0 — and `B` is added to known-files; and any scan whose
enumerated files are all already known performs no reassignment, emits
nothing and changes nothing. -/
theorem c5_reassignment (parseLine : List Char → Option Json)
    (fsys : String → Option (List Char)) (known known2 : List String) (fA fB : String)
    (aid : Nat) (st st2 : St) (a : Agent)
    (hA : st.agents aid = some a) (hAk : known.contains fA = true)
    (hBk : known.contains fB = false) (hfsB : fsys fB = some [])
    (hAk2 : known2.contains fA = true) (hBk2 : known2.contains fB = true) :
    (let r := scanForNewJsonlFiles parseLine fsys [fA, fB] known (some aid) st
     let a' := { a with
       jsonlFile := fB, fileOffset := 0, lineBuffer := [],
       activeToolIds := [], activeToolStatuses := [], isWaiting := false }
     r.2.2.2 = [(aid, fB)] ∧
     r.2.1 = known ++ [fB] ∧
     r.1.agents aid = some a' ∧
     r.2.2.1 = [Msg.agentToolsClear aid, Msg.agentStatus aid "active"]) ∧
    scanForNewJsonlFiles parseLine fsys [fA, fB] known2 (some aid) st2 =
      (st2, known2, [], []) := by
  constructor
  · simp only [scanForNewJsonlFiles, List.foldl, hAk, hBk, if_true, if_false,
      Bool.false_eq_true]
    simp [reassignAgentToFile, hA, cancelWaitingTimer, clearAgentActivity,
      startFileWatching, readNewLines, readNewLinesCore, setAgentF, hfsB]
  · have hmA2 : fA ∈ known2 := by simpa using hAk2
    have hmB2 : fB ∈ known2 := by simpa using hBk2
    simp [scanForNewJsonlFiles, hmA2, hmB2]

/-- Witness for `c5_reassignment`: known-files `{A}`, one new file `B`,
active agent 1. -/
theorem c5_reassignment_witness :
    stC5.agents 1 = some agC5 ∧ (["A"] : List String).contains "A" = true ∧
    (["A"] : List String).contains "B" = false ∧ fsC5 "B" = some [] ∧
    (["A", "B"] : List String).contains "A" = true ∧
    (["A", "B"] : List String).contains "B" = true ∧
    ((let r := scanForNewJsonlFiles (fun _ => none) fsC5 ["A", "B"] ["A"] (some 1) stC5
      let a' := { agC5 with
        jsonlFile := "B", fileOffset := 0, lineBuffer := [],
        activeToolIds := [], activeToolStatuses := [], isWaiting := false }
      r.2.2.2 = [(1, "B")] ∧
      r.2.1 = ["A"] ++ ["B"] ∧
      r.1.agents 1 = some a' ∧
      r.2.2.1 = [Msg.agentToolsClear 1, Msg.agentStatus 1 "active"]) ∧
     scanForNewJsonlFiles (fun _ => none) fsC5 ["A", "B"] ["A", "B"] (some 1) stC5 =
       (stC5, ["A", "B"], [], [])) :=
  ⟨rfl, by decide, by decide, rfl, by decide, by decide,
   c5_reassignment (fun _ => none) fsC5 ["A"] ["A", "B"] "A" "B" 1 stC5 stC5 agC5
     rfl (by decide) (by decide) rfl (by decide) (by decide)⟩

/-- One tool-use loop iteration never touches the waiting-timer table. -/
theorem toolUseStep_waitingTimers (agentId : Nat) (acc : St × List Msg) (b : Json) :
    (toolUseStep agentId acc b).1.waitingTimers = acc.1.waitingTimers := by
  unfold toolUseStep
  repeat' split
  all_goals rfl

/-- The tool-use loop never touches the waiting-timer table. -/
theorem processToolUseBlocks_waitingTimers (agentId : Nat) (blocks : List Json)
    (acc : St × List Msg) :
    (processToolUseBlocks agentId blocks acc).1.waitingTimers = acc.1.waitingTimers := by
  induction blocks generalizing acc with
  | nil => rfl
  | cons b bs ih =>
    show (processToolUseBlocks agentId bs (toolUseStep agentId acc b)).1.waitingTimers = _
    rw [ih]
    exact toolUseStep_waitingTimers agentId acc b

/-- Claim C6 (confirmed): a Provider A assistant record with a text block
and no tool_use block does not declare Waiting immediately — the agent
registry is untouched and nothing is emitted; it only arms the 2000 ms
waiting-debounce timer, whose expiry sets the agent Waiting, emits
StatusWaiting and disarms; and the armed timer is cancelled by a tool
start, a new user prompt, or an explicit `turn_duration` record arriving
first. -/
theorem c6_waiting_debounce (aid : Nat) (st : St) (a : Agent)
    (blocks blocksT : List Json) (u : String)
    (hA : st.agents aid = some a)
    (hNoTU : ¬ ∃ b ∈ blocks, b.strField "type" = some "tool_use")
    (hText : ∃ b ∈ blocks, b.strField "type" = some "text")
    (hTU : ∃ b ∈ blocksT, b.strField "type" = some "tool_use")
    (hu : strNonblank u = true) :
    (let rText := Json.obj [("type", Json.str "assistant"),
       ("message", Json.obj [("content", Json.arr blocks)])]
     let res := processTranscriptLine aid (some rText) st
     res.1.agents = st.agents ∧
     res.2 = [] ∧
     res.1.waitingTimers aid = some 2000 ∧
     (fireWaitingTimer aid res.1).1.agents aid = some { a with isWaiting := true } ∧
     (fireWaitingTimer aid res.1).2 = [Msg.agentStatus aid "waiting"] ∧
     (fireWaitingTimer aid res.1).1.waitingTimers aid = none ∧
     (processTranscriptLine aid (some (Json.obj [("type", Json.str "assistant"),
        ("message", Json.obj [("content", Json.arr blocksT)])])) res.1).1.waitingTimers aid =
       none ∧
     (processTranscriptLine aid (some (Json.obj [("type", Json.str "user"),
        ("message", Json.obj [("content", Json.str u)])])) res.1).1.waitingTimers aid = none ∧
     (processTranscriptLine aid (some (Json.obj [("type", Json.str "system"),
        ("subtype", Json.str "turn_duration")])) res.1).1.waitingTimers aid = none) := by
  have htyA : (Json.obj [("type", Json.str "assistant"),
      ("message", Json.obj [("content", Json.arr blocks)])]).strField "type" =
      some "assistant" := rfl
  have hmsgA : ((Json.obj [("type", Json.str "assistant"),
      ("message", Json.obj [("content", Json.arr blocks)])]).get? "message").bind
      (fun m => m.get? "content") = some (Json.arr blocks) := rfl
  have hres : processTranscriptLine aid
      (some (Json.obj [("type", Json.str "assistant"),
        ("message", Json.obj [("content", Json.arr blocks)])])) st =
      (startWaitingTimer aid 2000 st, []) := by
    simp only [processTranscriptLine, hA]
    simp [htyA, hmsgA, hNoTU, hText]
  have hA1 : (startWaitingTimer aid 2000 st).agents aid = some a := hA
  refine ⟨?_, ?_, ?_, ?_, ?_, ?_, ?_, ?_, ?_⟩
  · rw [hres]; rfl
  · rw [hres]
  · rw [hres]; simp [startWaitingTimer, cancelWaitingTimer]
  · rw [hres]; simp [fireWaitingTimer, hA1, setAgentF]
  · rw [hres]; rfl
  · rw [hres]; simp [fireWaitingTimer, hA1, setAgentF]
  · rw [hres]
    have htyT : (Json.obj [("type", Json.str "assistant"),
        ("message", Json.obj [("content", Json.arr blocksT)])]).strField "type" =
        some "assistant" := rfl
    have hmsgT : ((Json.obj [("type", Json.str "assistant"),
        ("message", Json.obj [("content", Json.arr blocksT)])]).get? "message").bind
        (fun m => m.get? "content") = some (Json.arr blocksT) := rfl
    rw [show processTranscriptLine aid
        (some (Json.obj [("type", Json.str "assistant"),
          ("message", Json.obj [("content", Json.arr blocksT)])]))
        (startWaitingTimer aid 2000 st) =
        processToolUseBlocks aid blocksT
          (setAgentF (cancelWaitingTimer aid (startWaitingTimer aid 2000 st)) aid
            { a with isWaiting := false },
           [Msg.agentStatus aid "active"]) from by
      simp only [processTranscriptLine, hA1]
      simp [htyT, hmsgT, hTU]]
    rw [processToolUseBlocks_waitingTimers]
    simp [setAgentF, cancelWaitingTimer]
  · rw [hres]
    have htyU : (Json.obj [("type", Json.str "user"),
        ("message", Json.obj [("content", Json.str u)])]).strField "type" = some "user" := rfl
    have hmsgU : ((Json.obj [("type", Json.str "user"),
        ("message", Json.obj [("content", Json.str u)])]).get? "message").bind
        (fun m => m.get? "content") = some (Json.str u) := rfl
    simp only [processTranscriptLine, hA1]
    simp [htyU, hmsgU, hu, clearAgentActivity, hA1, setAgentF, cancelWaitingTimer]
  · rw [hres]
    have htyS : (Json.obj [("type", Json.str "system"),
        ("subtype", Json.str "turn_duration")]).strField "type" = some "system" := rfl
    have hsubS : (Json.obj [("type", Json.str "system"),
        ("subtype", Json.str "turn_duration")]).strField "subtype" =
        some "turn_duration" := rfl
    have hmsgS : ((Json.obj [("type", Json.str "system"),
        ("subtype", Json.str "turn_duration")]).get? "message").bind
        (fun m => m.get? "content") = none := rfl
    simp only [processTranscriptLine, hA1]
    simp [htyS, hsubS, hmsgS, setAgentF, cancelWaitingTimer]

/-- Fresh agent for the C6 witness. -/
def agC6 : Agent :=
  { jsonlFile := "s.jsonl", fileOffset := 0, lineBuffer := [],
    activeToolIds := [], activeToolStatuses := [], activeToolNames := [],
    isWaiting := false, permissionSent := false, hadToolsInTurn := false }

/-- Engine state holding only agent 1 for the C6 witness. -/
def stC6 : St :=
  { agents := fun j => if j = 1 then some agC6 else none,
    waitingTimers := fun _ => none, permissionTimers := fun _ => false,
    fileWatchers := fun _ => false, pollingTimers := fun _ => false,
    jsonlPollTimers := fun _ => false, pendingToolDone := [] }

/-- A text-only assistant content list for the C6 witness. -/
def blocksC6 : List Json := [Json.obj [("type", Json.str "text"), ("text", Json.str "hi")]]

/-- A tool_use content list for the C6 witness. -/
def blocksC6T : List Json :=
  [Json.obj [("type", Json.str "tool_use"), ("id", Json.str "t1"),
    ("name", Json.str "Read"), ("input", Json.obj [("file_path", Json.str "/repo/a.ts")])]]

/-- Witness for `c6_waiting_debounce` at the concrete C6 scenario. -/
theorem c6_waiting_debounce_witness :
    stC6.agents 1 = some agC6 ∧
    (¬ ∃ b ∈ blocksC6, b.strField "type" = some "tool_use") ∧
    (∃ b ∈ blocksC6, b.strField "type" = some "text") ∧
    (∃ b ∈ blocksC6T, b.strField "type" = some "tool_use") ∧
    strNonblank "go" = true ∧
    (let rText := Json.obj [("type", Json.str "assistant"),
       ("message", Json.obj [("content", Json.arr blocksC6)])]
     let res := processTranscriptLine 1 (some rText) stC6
     res.1.agents = stC6.agents ∧
     res.2 = [] ∧
     res.1.waitingTimers 1 = some 2000 ∧
     (fireWaitingTimer 1 res.1).1.agents 1 = some { agC6 with isWaiting := true } ∧
     (fireWaitingTimer 1 res.1).2 = [Msg.agentStatus 1 "waiting"] ∧
     (fireWaitingTimer 1 res.1).1.waitingTimers 1 = none ∧
     (processTranscriptLine 1 (some (Json.obj [("type", Json.str "assistant"),
        ("message", Json.obj [("content", Json.arr blocksC6T)])])) res.1).1.waitingTimers 1 =
       none ∧
     (processTranscriptLine 1 (some (Json.obj [("type", Json.str "user"),
        ("message", Json.obj [("content", Json.str "go")])])) res.1).1.waitingTimers 1 = none ∧
     (processTranscriptLine 1 (some (Json.obj [("type", Json.str "system"),
        ("subtype", Json.str "turn_duration")])) res.1).1.waitingTimers 1 = none) :=
  ⟨rfl, by decide, by decide, by decide, by decide,
   c6_waiting_debounce 1 stC6 agC6 blocksC6 blocksC6T "go" rfl (by decide) (by decide)
     (by decide) (by decide)⟩

/-- Agent for the C7 counterexample: Waiting with stale tool entries. -/
def agC7 : Agent :=
  { jsonlFile := "s.jsonl", fileOffset := 0, lineBuffer := [],
    activeToolIds := ["t1"], activeToolStatuses := [("t1", "Using X")],
    activeToolNames := [], isWaiting := true, permissionSent := false,
    hadToolsInTurn := false }

/-- Engine state holding only agent 1 for C7. -/
def stC7 : St :=
  { agents := fun j => if j = 1 then some agC7 else none,
    waitingTimers := fun _ => none, permissionTimers := fun _ => false,
    fileWatchers := fun _ => false, pollingTimers := fun _ => false,
    jsonlPollTimers := fun _ => false, pendingToolDone := [] }

/-- Claim C7 is false on the code: on an agent in the Waiting state,
`clearAgentActivity` (the ToolsCleared handler) does not leave `turnState`
unchanged — it sets `isWaiting` from `true` to `false` and emits
StatusActive alongside ToolsCleared. -/
theorem c7_counterexample :
    (stC7.agents 1).map Agent.isWaiting = some true ∧
    ((clearAgentActivity 1 stC7).1.agents 1).map Agent.isWaiting = some false ∧
    (clearAgentActivity 1 stC7).2 = [Msg.agentToolsClear 1, Msg.agentStatus 1 "active"] ∧
    some false ≠ some true :=
  ⟨rfl, rfl, rfl, by decide⟩

/-- Claim C7 (amended): whenever a new user prompt is detected,
`activeTools` is emptied, but `turnState` is not preserved: the handler
runs in either state and always sets the agent Active (`isWaiting :=
false`), emitting StatusActive right after ToolsCleared; the per-agent
timer tables are untouched by the clearing itself (the parser separately
cancels the waiting debounce first). -/
theorem c7_tools_cleared (aid : Nat) (st : St) (a : Agent) (u : String)
    (hA : st.agents aid = some a) (hu : strNonblank u = true) :
    (clearAgentActivity aid st).1.agents aid =
      some { a with activeToolIds := [], activeToolStatuses := [], isWaiting := false } ∧
    (clearAgentActivity aid st).2 = [Msg.agentToolsClear aid, Msg.agentStatus aid "active"] ∧
    (clearAgentActivity aid st).1.waitingTimers = st.waitingTimers ∧
    (clearAgentActivity aid st).1.permissionTimers = st.permissionTimers ∧
    processTranscriptLine aid (some (Json.obj [("type", Json.str "user"),
      ("message", Json.obj [("content", Json.str u)])])) st =
      clearAgentActivity aid (cancelWaitingTimer aid st) := by
  have htyU : (Json.obj [("type", Json.str "user"),
      ("message", Json.obj [("content", Json.str u)])]).strField "type" = some "user" := rfl
  have hmsgU : ((Json.obj [("type", Json.str "user"),
      ("message", Json.obj [("content", Json.str u)])]).get? "message").bind
      (fun m => m.get? "content") = some (Json.str u) := rfl
  refine ⟨?_, ?_, ?_, ?_, ?_⟩
  · simp [clearAgentActivity, hA, setAgentF]
  · simp [clearAgentActivity, hA]
  · simp [clearAgentActivity, hA, setAgentF]
  · simp [clearAgentActivity, hA, setAgentF]
  · simp only [processTranscriptLine, hA]
    simp [htyU, hmsgU, hu]

/-- Witness for `c7_tools_cleared` at the concrete C7 state. -/
theorem c7_tools_cleared_witness :
    stC7.agents 1 = some agC7 ∧ strNonblank "retry" = true ∧
    ((clearAgentActivity 1 stC7).1.agents 1 =
       some { agC7 with activeToolIds := [], activeToolStatuses := [], isWaiting := false } ∧
     (clearAgentActivity 1 stC7).2 = [Msg.agentToolsClear 1, Msg.agentStatus 1 "active"] ∧
     (clearAgentActivity 1 stC7).1.waitingTimers = stC7.waitingTimers ∧
     (clearAgentActivity 1 stC7).1.permissionTimers = stC7.permissionTimers ∧
     processTranscriptLine 1 (some (Json.obj [("type", Json.str "user"),
       ("message", Json.obj [("content", Json.str "retry")])])) stC7 =
       clearAgentActivity 1 (cancelWaitingTimer 1 stC7)) :=
  ⟨rfl, by decide,
   c7_tools_cleared 1 stC7 agC7 "retry" rfl (by decide)⟩

/-- Idle agent for the C8 scenarios: no active tools. -/
def agC8 : Agent :=
  { jsonlFile := "s.jsonl", fileOffset := 0, lineBuffer := [],
    activeToolIds := [], activeToolStatuses := [], activeToolNames := [],
    isWaiting := false, permissionSent := false, hadToolsInTurn := false }

/-- Engine state holding only agent 1 for C8. -/
def stC8 : St :=
  { agents := fun j => if j = 1 then some agC8 else none,
    waitingTimers := fun _ => none, permissionTimers := fun _ => false,
    fileWatchers := fun _ => false, pollingTimers := fun _ => false,
    jsonlPollTimers := fun _ => false, pendingToolDone := [] }

/-- Claim C8 is false on the code: a completion record whose id `x` was
never started is not ignored silently. The Provider A parser still
schedules the delayed `agentToolDone` post for `x`, whose firing emits a
ToolFinished event to the sink; the Provider B parser additionally flips
the idle agent to Waiting and immediately emits StatusWaiting. -/
theorem c8_counterexample :
    (processTranscriptLine 1 (some (Json.obj [("type", Json.str "user"),
        ("message", Json.obj [("content", Json.arr [Json.obj
          [("type", Json.str "tool_result"), ("tool_use_id", Json.str "x")]])])])) stC8).1.pendingToolDone =
      [(1, "x", 300)] ∧
    (firePendingToolDone 1 "x" 300
        ((processTranscriptLine 1 (some (Json.obj [("type", Json.str "user"),
          ("message", Json.obj [("content", Json.arr [Json.obj
            [("type", Json.str "tool_result"), ("tool_use_id", Json.str "x")]])])])) stC8).1)).2 =
      [Msg.agentToolDone 1 "x"] ∧
    ((processCodexTranscriptLine (fun _ => false) 1
        (some (Json.obj [("type", Json.str "tool_end"), ("tool_id", Json.str "x")])) stC8).2 =
      [Msg.agentStatus 1 "waiting"]) ∧
    (((processCodexTranscriptLine (fun _ => false) 1
        (some (Json.obj [("type", Json.str "tool_end"), ("tool_id", Json.str "x")])) stC8).1.agents
        1).map Agent.isWaiting = some true) ∧
    (stC8.agents 1).map Agent.isWaiting = some false ∧
    ([Msg.agentToolDone 1 "x"] : List Msg) ≠ [] ∧
    ([Msg.agentStatus 1 "waiting"] : List Msg) ≠ [] :=
  ⟨rfl, rfl, rfl, rfl, rfl, by decide, by decide⟩

/-- Claim C8 (amended): an unmatched tool-completion record leaves the
agent's tool maps unchanged (the deletions are no-ops) and the Provider A
parser changes no agent state and emits nothing immediately — but it still
schedules the fixed-delay `agentToolDone` post for the unmatched id, whose
firing emits ToolFinished to the sink; and in the Provider B parser, when
no tools are active, the record moreover cancels the stall timer, sets the
agent Waiting and emits StatusWaiting. -/
theorem c8_unmatched_completion (aid : Nat) (st : St) (a : Agent) (tid : String)
    (exempt : String → Bool)
    (hA : st.agents aid = some a) (htid : tid ≠ "")
    (hnm : tid ∉ a.activeToolIds)
    (hnmS : ∀ q ∈ a.activeToolStatuses, q.1 ≠ tid)
    (hnmN : ∀ q ∈ a.activeToolNames, q.1 ≠ tid)
    (hEmptyIds : a.activeToolIds = []) :
    (let rec1 := Json.obj [("type", Json.str "user"),
       ("message", Json.obj [("content", Json.arr [Json.obj
         [("type", Json.str "tool_result"), ("tool_use_id", Json.str tid)]])])]
     let res := processTranscriptLine aid (some rec1) st
     res.1.agents aid = some a ∧
     res.2 = [] ∧
     res.1.pendingToolDone = st.pendingToolDone ++ [(aid, tid, 300)] ∧
     (firePendingToolDone aid tid 300 res.1).2 = [Msg.agentToolDone aid tid]) ∧
    (let rec2 := Json.obj [("type", Json.str "tool_end"), ("tool_id", Json.str tid)]
     let res2 := processCodexTranscriptLine exempt aid (some rec2) st
     res2.1.agents aid = some { a with isWaiting := true, permissionSent := false } ∧
     res2.1.permissionTimers aid = false ∧
     res2.1.pendingToolDone = st.pendingToolDone ++ [(aid, tid, TOOL_DONE_DELAY_MS)] ∧
     res2.2 = [Msg.agentStatus aid "waiting"]) := by
  have hsd : setDel a.activeToolIds tid = a.activeToolIds := by
    rw [setDel, List.filter_eq_self]
    intro y hy
    simp only [ne_eq, decide_not, Bool.not_eq_eq_eq_not, Bool.not_true, decide_eq_false_iff_not]
    exact fun he => hnm (he ▸ hy)
  have hcond : setDel a.activeToolIds tid = [] := by rw [hsd, hEmptyIds]
  have hmdS : mapDel a.activeToolStatuses tid = a.activeToolStatuses := by
    rw [mapDel, List.filter_eq_self]
    intro q hq
    simpa using hnmS q hq
  have hmdN : mapDel a.activeToolNames tid = a.activeToolNames := by
    rw [mapDel, List.filter_eq_self]
    intro q hq
    simpa using hnmN q hq
  constructor
  · simp only [processTranscriptLine, hA]
    simp [processToolResultBlocks, toolResultStep, Json.strField, Json.get?, hA, htid,
      setAgentF, firePendingToolDone, hsd, hmdS]
  · have hr : (Json.obj [("type", Json.str "tool_end"),
        ("tool_id", Json.str tid)]).strField "type" = some "tool_end" := rfl
    have h0 : setDel ([] : List String) tid = [] := rfl
    simp only [processCodexTranscriptLine, hA]
    simp [handleToolEnd, isCodexToolRecord, hr, hA, htid, extractToolId, Json.strField,
      Json.get?, setAgentF, cancelPermissionTimer, hsd, hmdS, hmdN, hcond, hEmptyIds, h0]

/-- Witness for `c8_unmatched_completion` on the idle agent and unmatched
id `x`. -/
theorem c8_unmatched_completion_witness :
    stC8.agents 1 = some agC8 ∧ ("x" : String) ≠ "" ∧ "x" ∉ agC8.activeToolIds ∧
    (∀ q ∈ agC8.activeToolStatuses, q.1 ≠ "x") ∧
    (∀ q ∈ agC8.activeToolNames, q.1 ≠ "x") ∧
    agC8.activeToolIds = [] ∧
    ((let rec1 := Json.obj [("type", Json.str "user"),
        ("message", Json.obj [("content", Json.arr [Json.obj
          [("type", Json.str "tool_result"), ("tool_use_id", Json.str "x")]])])]
      let res := processTranscriptLine 1 (some rec1) stC8
      res.1.agents 1 = some agC8 ∧
      res.2 = [] ∧
      res.1.pendingToolDone = stC8.pendingToolDone ++ [(1, "x", 300)] ∧
      (firePendingToolDone 1 "x" 300 res.1).2 = [Msg.agentToolDone 1 "x"]) ∧
     (let rec2 := Json.obj [("type", Json.str "tool_end"), ("tool_id", Json.str "x")]
      let res2 := processCodexTranscriptLine (fun _ => false) 1 (some rec2) stC8
      res2.1.agents 1 = some { agC8 with isWaiting := true, permissionSent := false } ∧
      res2.1.permissionTimers 1 = false ∧
      res2.1.pendingToolDone = stC8.pendingToolDone ++ [(1, "x", TOOL_DONE_DELAY_MS)] ∧
      res2.2 = [Msg.agentStatus 1 "waiting"])) :=
  ⟨rfl, by decide, by decide, by decide, by decide, rfl,
   c8_unmatched_completion 1 stC8 agC8 "x" (fun _ => false) rfl (by decide) (by decide)
     (by decide) (by decide) rfl⟩

/-- Agent for the C9 scenario: one outstanding tool `t1`. -/
def agC9 : Agent :=
  { jsonlFile := "s.jsonl", fileOffset := 0, lineBuffer := [],
    activeToolIds := ["t1"], activeToolStatuses := [("t1", "Using X")],
    activeToolNames := [], isWaiting := false, permissionSent := false,
    hadToolsInTurn := false }

/-- Engine state for C9: agent 1 with every timer/watcher table armed. -/
def stC9 : St :=
  { agents := fun j => if j = 1 then some agC9 else none,
    waitingTimers := fun j => if j = 1 then some 2000 else none,
    permissionTimers := fun j => j = 1,
    fileWatchers := fun j => j = 1, pollingTimers := fun j => j = 1,
    jsonlPollTimers := fun j => j = 1, pendingToolDone := [] }

/-- The completion record scheduling a delayed `agentToolDone` for C9. -/
def recC9 : Json :=
  Json.obj [("type", Json.str "user"),
    ("message", Json.obj [("content", Json.arr [Json.obj
      [("type", Json.str "tool_result"), ("tool_use_id", Json.str "t1")]])])]

/-- Claim C9 is false on the code: after a completion schedules the 300 ms
delayed `agentToolDone` post and the agent is removed, removal cancels the
five keyed timer/watcher tables but not the anonymous delayed-completion
timer — its entry survives removal and its callback still emits
`agentToolDone` for the removed id. -/
theorem c9_counterexample :
    (removeAgent 1 (processTranscriptLine 1 (some recC9) stC9).1).agents 1 = none ∧
    (removeAgent 1 (processTranscriptLine 1 (some recC9) stC9).1).waitingTimers 1 = none ∧
    (removeAgent 1 (processTranscriptLine 1 (some recC9) stC9).1).permissionTimers 1 = false ∧
    (removeAgent 1 (processTranscriptLine 1 (some recC9) stC9).1).fileWatchers 1 = false ∧
    (removeAgent 1 (processTranscriptLine 1 (some recC9) stC9).1).pollingTimers 1 = false ∧
    (removeAgent 1 (processTranscriptLine 1 (some recC9) stC9).1).jsonlPollTimers 1 = false ∧
    (removeAgent 1 (processTranscriptLine 1 (some recC9) stC9).1).pendingToolDone =
      [(1, "t1", 300)] ∧
    (firePendingToolDone 1 "t1" 300
        (removeAgent 1 (processTranscriptLine 1 (some recC9) stC9).1)).2 =
      [Msg.agentToolDone 1 "t1"] ∧
    ([Msg.agentToolDone 1 "t1"] : List Msg) ≠ [] :=
  ⟨rfl, rfl, rfl, rfl, rfl, rfl, rfl, rfl, by decide⟩

/-- Claim C9 (amended): removing an agent synchronously cancels every
keyed timer and watcher — the jsonl-poll interval, the file watcher, the
backup poll interval, and the waiting-debounce and stall/permission
timers — and deletes the registry entry, leaving other agents untouched;
but scheduled delayed-completion posts are not keyed and survive removal:
firing one after removal mutates no agent record yet still emits
ToolFinished for the removed id. -/
theorem c9_remove_agent (aid : Nat) (st : St) (a : Agent) (tid : String) (d : Nat)
    (hA : st.agents aid = some a) :
    (removeAgent aid st).agents aid = none ∧
    (removeAgent aid st).waitingTimers aid = none ∧
    (removeAgent aid st).permissionTimers aid = false ∧
    (removeAgent aid st).fileWatchers aid = false ∧
    (removeAgent aid st).pollingTimers aid = false ∧
    (removeAgent aid st).jsonlPollTimers aid = false ∧
    (∀ j, j ≠ aid → (removeAgent aid st).agents j = st.agents j) ∧
    (removeAgent aid st).pendingToolDone = st.pendingToolDone ∧
    (firePendingToolDone aid tid d (removeAgent aid st)).1.agents =
      (removeAgent aid st).agents ∧
    (firePendingToolDone aid tid d (removeAgent aid st)).2 = [Msg.agentToolDone aid tid] := by
  refine ⟨?_, ?_, ?_, ?_, ?_, ?_, ?_, ?_, ?_, ?_⟩ <;>
    simp [removeAgent, hA, firePendingToolDone]
  intro j hj
  simp [hj]

/-- Witness for `c9_remove_agent` at the concrete C9 state. -/
theorem c9_remove_agent_witness :
    stC9.agents 1 = some agC9 ∧
    ((removeAgent 1 stC9).agents 1 = none ∧
     (removeAgent 1 stC9).waitingTimers 1 = none ∧
     (removeAgent 1 stC9).permissionTimers 1 = false ∧
     (removeAgent 1 stC9).fileWatchers 1 = false ∧
     (removeAgent 1 stC9).pollingTimers 1 = false ∧
     (removeAgent 1 stC9).jsonlPollTimers 1 = false ∧
     (∀ j, j ≠ 1 → (removeAgent 1 stC9).agents j = stC9.agents j) ∧
     (removeAgent 1 stC9).pendingToolDone = stC9.pendingToolDone ∧
     (firePendingToolDone 1 "t1" 300 (removeAgent 1 stC9)).1.agents =
       (removeAgent 1 stC9).agents ∧
     (firePendingToolDone 1 "t1" 300 (removeAgent 1 stC9)).2 = [Msg.agentToolDone 1 "t1"]) :=
  ⟨rfl, c9_remove_agent 1 stC9 agC9 "t1" 300 rfl⟩

/-- Claim C10 (confirmed): a Provider B tool record of any of the four
tool types carrying neither a `tool_id` nor an `id` field is a complete
no-op — the state (agent record, timers, scheduled posts) is returned
unchanged and nothing is posted to the sink. -/
theorem c10_codex_missing_id_noop (exempt : String → Bool) (aid : Nat) (st : St) (a : Agent)
    (fields : List (String × Json))
    (hA : st.agents aid = some a)
    (hty : (Json.obj fields).strField "type" = some "tool_start" ∨
           (Json.obj fields).strField "type" = some "tool_call" ∨
           (Json.obj fields).strField "type" = some "tool_end" ∨
           (Json.obj fields).strField "type" = some "tool_result")
    (h1 : (Json.obj fields).get? "tool_id" = none)
    (h2 : (Json.obj fields).get? "id" = none) :
    processCodexTranscriptLine exempt aid (some (Json.obj fields)) st = (st, []) := by
  have hid : extractToolId (Json.obj fields) = none := by
    simp [extractToolId, h1, h2]
  rcases hty with h | h | h | h <;>
    simp [processCodexTranscriptLine, isCodexToolRecord, handleToolStart, handleToolEnd,
      h, hA, hid]

/-- Fresh agent for the C10 witness. -/
def agC10 : Agent :=
  { jsonlFile := "s.jsonl", fileOffset := 0, lineBuffer := [],
    activeToolIds := [], activeToolStatuses := [], activeToolNames := [],
    isWaiting := false, permissionSent := false, hadToolsInTurn := false }

/-- Engine state holding only agent 1 for the C10 witness. -/
def stC10 : St :=
  { agents := fun j => if j = 1 then some agC10 else none,
    waitingTimers := fun _ => none, permissionTimers := fun _ => false,
    fileWatchers := fun _ => false, pollingTimers := fun _ => false,
    jsonlPollTimers := fun _ => false, pendingToolDone := [] }

/-- Witness for `c10_codex_missing_id_noop` on the record
`{"type":"tool_start","tool_name":"bash"}`. -/
theorem c10_codex_missing_id_noop_witness :
    stC10.agents 1 = some agC10 ∧
    (Json.obj [("type", Json.str "tool_start"), ("tool_name", Json.str "bash")]).get?
      "tool_id" = none ∧
    (Json.obj [("type", Json.str "tool_start"), ("tool_name", Json.str "bash")]).get?
      "id" = none ∧
    processCodexTranscriptLine (fun _ => false) 1
      (some (Json.obj [("type", Json.str "tool_start"), ("tool_name", Json.str "bash")]))
      stC10 = (stC10, []) :=
  ⟨rfl, rfl, rfl,
   c10_codex_missing_id_noop (fun _ => false) 1 stC10 agC10
     [("type", Json.str "tool_start"), ("tool_name", Json.str "bash")]
     rfl (Or.inl rfl) rfl rfl⟩
